import Mathlib

/-!
Shallow embedding of the helpscripts repository's claim-relevant code paths:

* `grab_properties.py`  — slab-analysis band-gap / conducting-state scan
* `NewCifToD12.py`      — `format_crystal_float`, `generate_unit_cell_line`
* `create_band_d3.py`   — `writed3` k-path template selection
* `getWF.py`            — `getWF` work-function extraction
* `crystal_queue_manager.py` — `load_status`, `update_job_status`,
  `submit_job`, `get_current_jobs`, `process_queue` capacity logic

Python machine floats are modelled as exact rationals (ℚ); fallible code
(Python exceptions such as `ValueError` from `float(...)`, `IndexError`
from out-of-range indexing) is modelled with `Option`, `none` standing
for a raised exception.
-/

set_option maxRecDepth 100000

namespace Helpscripts

/-- Python whitespace characters (`str.split()` / `str.strip()`). -/
def pyIsSpace (c : Char) : Bool :=
  c = ' ' || c = '\t' || c = '\n' || c = '\r' || c = '\x0b' || c = '\x0c'

/-- Whether the first character list is a prefix of the second. -/
def listIsPrefix : List Char → List Char → Bool
  | [], _ => true
  | _ :: _, [] => false
  | p :: ps, c :: cs => p = c && listIsPrefix ps cs

/-- Python `s.startswith(pre)`. -/
def pyStartsWith (s pre : String) : Bool :=
  listIsPrefix pre.toList s.toList

/-- Python `s.endswith(suf)`. -/
def pyEndsWith (s suf : String) : Bool :=
  listIsPrefix suf.toList.reverse s.toList.reverse

/-- Tokeniser for Python `str.split()` with no arguments: split on runs
of whitespace, dropping empty pieces (`cur` holds the current token's
characters in reverse). -/
def splitWsAux : List Char → List Char → List String
  | [], cur => if cur.isEmpty then [] else [String.mk cur.reverse]
  | c :: cs, cur =>
    if pyIsSpace c then
      if cur.isEmpty then splitWsAux cs []
      else String.mk cur.reverse :: splitWsAux cs []
    else splitWsAux cs (c :: cur)

/-- Python `str.split()` with no arguments. -/
def pySplit (s : String) : List String :=
  splitWsAux s.toList []

/-- Python `pat in s` substring containment. -/
def pyIn (pat s : String) : Bool :=
  decide (pat.toList <:+: s.toList)

/-- Python list indexing `l[i]` with negative-index wraparound;
`none` models an `IndexError`. -/
def pyIdx {α : Type} (l : List α) (i : ℤ) : Option α :=
  if 0 ≤ i then l.get? i.toNat
  else if (-i).toNat ≤ l.length then l.get? (l.length - (-i).toNat)
  else none

/-! Rational arithmetic via `mkRat`, so that every operation the
embedding performs is evaluable by kernel reduction; `qAdd_eq` … `qDiv_eq`
below identify them with the field operations of ℚ. -/

/-- Addition on ℚ through `mkRat`. -/
def qAdd (x y : ℚ) : ℚ := mkRat (x.num * y.den + y.num * x.den) (x.den * y.den)

/-- Subtraction on ℚ through `mkRat`. -/
def qSub (x y : ℚ) : ℚ := mkRat (x.num * y.den - y.num * x.den) (x.den * y.den)

/-- Multiplication on ℚ through `mkRat`. -/
def qMul (x y : ℚ) : ℚ := mkRat (x.num * y.num) (x.den * y.den)

/-- Division on ℚ through `mkRat` (0 for a zero divisor, as in ℚ). -/
def qDiv (x y : ℚ) : ℚ :=
  if 0 ≤ y.num then mkRat (x.num * y.den) (x.den * y.num.toNat)
  else mkRat (-(x.num * y.den)) (x.den * (-y.num).toNat)

/-- `max` on ℚ (numpy `np.max` of a two-element list). -/
def qMax (x y : ℚ) : ℚ := if x ≤ y then y else x

/-- `min` on ℚ (numpy `np.min` of a two-element list). -/
def qMin (x y : ℚ) : ℚ := if x ≤ y then x else y

theorem qAdd_eq (x y : ℚ) : qAdd x y = x + y := by
  have hx : (x.den : ℚ) ≠ 0 := by exact_mod_cast x.den_nz
  have hy : (y.den : ℚ) ≠ 0 := by exact_mod_cast y.den_nz
  rw [qAdd, Rat.mkRat_eq_div]
  push_cast
  conv_rhs => rw [← Rat.num_div_den x, ← Rat.num_div_den y]
  rw [div_add_div _ _ hx hy]
  ring_nf

theorem qSub_eq (x y : ℚ) : qSub x y = x - y := by
  have hx : (x.den : ℚ) ≠ 0 := by exact_mod_cast x.den_nz
  have hy : (y.den : ℚ) ≠ 0 := by exact_mod_cast y.den_nz
  rw [qSub, Rat.mkRat_eq_div]
  push_cast
  conv_rhs => rw [← Rat.num_div_den x, ← Rat.num_div_den y]
  rw [div_sub_div _ _ hx hy]
  ring_nf

theorem qMul_eq (x y : ℚ) : qMul x y = x * y := by
  have hx : (x.den : ℚ) ≠ 0 := by exact_mod_cast x.den_nz
  have hy : (y.den : ℚ) ≠ 0 := by exact_mod_cast y.den_nz
  rw [qMul, Rat.mkRat_eq_div]
  push_cast
  conv_rhs => rw [← Rat.num_div_den x, ← Rat.num_div_den y]
  rw [div_mul_div_comm]

theorem qDiv_eq (x y : ℚ) : qDiv x y = x / y := by
  have hx : (x.den : ℚ) ≠ 0 := by exact_mod_cast x.den_nz
  rcases eq_or_ne y 0 with rfl | hy0
  · simp [qDiv, Rat.mkRat_eq_div]
  · have hyn : y.num ≠ 0 := Rat.num_ne_zero.mpr hy0
    have hy : (y.den : ℚ) ≠ 0 := by exact_mod_cast y.den_nz
    have hnq : (y.num : ℚ) ≠ 0 := by exact_mod_cast hyn
    rcases le_or_lt 0 y.num with h | h
    · rw [qDiv, if_pos h, Rat.mkRat_eq_div]
      have hcast : ((y.num.toNat : ℕ) : ℚ) = (y.num : ℚ) := by
        exact_mod_cast Int.toNat_of_nonneg h
      push_cast
      rw [hcast]
      conv_rhs => rw [← Rat.num_div_den x, ← Rat.num_div_den y]
      field_simp
    · rw [qDiv, if_neg (not_le.mpr h), Rat.mkRat_eq_div]
      have hcast : (((-y.num).toNat : ℕ) : ℚ) = ((-y.num : ℤ) : ℚ) := by
        exact_mod_cast Int.toNat_of_nonneg (by omega : (0:ℤ) ≤ -y.num)
      push_cast
      push_cast at hcast
      rw [hcast]
      conv_rhs => rw [← Rat.num_div_den x, ← Rat.num_div_den y]
      field_simp

theorem qMax_eq (x y : ℚ) : qMax x y = max x y := by
  rw [qMax, max_def]

theorem qMin_eq (x y : ℚ) : qMin x y = min x y := by
  rw [qMin, min_def]

/-- Decimal digits to a natural number. -/
def digitsToNat (cs : List Char) : ℕ :=
  cs.foldl (fun n c => 10 * n + (c.toNat - 48)) 0

/-- Unsigned decimal-notation parse: digits, optionally a dot and more
digits, at least one digit overall.  (Exponent notation is not needed by
any log value handled here.) -/
def parseUnsigned (cs : List Char) : Option ℚ :=
  let ip := cs.takeWhile Char.isDigit
  let rest := cs.dropWhile Char.isDigit
  match rest with
  | [] => if ip.isEmpty then none else some (digitsToNat ip)
  | '.' :: fr =>
    if fr.all Char.isDigit && (!ip.isEmpty || !fr.isEmpty) then
      -- the decimal value ip + fr / 10^|fr|, as a single fraction
      some (mkRat (digitsToNat ip * 10 ^ fr.length + digitsToNat fr) (10 ^ fr.length))
    else none
  | _ => none

/-- Python `float(tok)` on a whitespace-free token; `none` models a
`ValueError`. -/
def pyFloat (s : String) : Option ℚ :=
  match s.toList with
  | '-' :: rest => (parseUnsigned rest).map (fun q => -q)
  | '+' :: rest => parseUnsigned rest
  | cs => parseUnsigned cs

/-- Python `int(tok)` on a whitespace-free token; `none` models a
`ValueError`. -/
def pyInt (s : String) : Option ℤ :=
  let digs (cs : List Char) : Option ℤ :=
    if cs.isEmpty || !cs.all Char.isDigit then none else some (digitsToNat cs)
  match s.toList with
  | '-' :: rest => (digs rest).map (fun z => -z)
  | '+' :: rest => digs rest
  | cs => digs cs

/-- Python `s.rstrip(c)` for a single strip character. -/
def pyRstrip (s : String) (c : Char) : String :=
  String.mk ((s.toList.reverse.dropWhile (fun ch => ch = c)).reverse)

/-- Left-pad a digit string with zeros to width `n`. -/
def padLeftZeros (s : String) (n : ℕ) : String :=
  String.mk (List.replicate (n - s.toList.length) '0') ++ s

/-- Fixed-point decimal rendering of a rational, modelling Python's
`f"{value:.Nf}"` format (round half to even at the last kept digit). -/
def fmtFixed (q : ℚ) (prec : ℕ) : String :=
  let scaled : ℚ := qMul |q| (mkRat (10 ^ prec) 1)
  let fl : ℤ := ⌊scaled⌋
  let frac : ℚ := qSub scaled (mkRat fl 1)
  let n : ℤ :=
    if frac > mkRat 1 2 then fl + 1
    else if frac < mkRat 1 2 then fl
    else if fl % 2 = 0 then fl else fl + 1
  let m : ℕ := n.toNat
  (if q < 0 then "-" else "")
    ++ toString (m / 10 ^ prec) ++ "." ++ padLeftZeros (toString (m % 10 ^ prec)) prec

/-! ## `grab_properties.py` — slab analysis scan

The slab-analysis loop (source lines 69–129) threads mutable scalars over
the log lines.  The embedding tracks the scalars the band-gap claims read
(`md`, `id`, `atoms`, `E_slb`, `state_slb`, `Ebg_slb`, `GAPTYPE_slb`)
plus `elSize`, the length of the `el` array (99 initially, 20 after the
line-129 reassignment), and keeps every failure mode of the loop: each
`float(...)`/`int(...)` parse (`ValueError`), the out-of-bounds
geometry-array stores of the Cartesian window (`IndexError`, including
stores into the shrunken `el`), and the IAD block's negative-factorial
and size-99 indexing failures.  Only the stored geometry *values* and the
IAD/mass arithmetic, which no tracked field and no failure mode reads,
are elided. -/

/-- Source constant `LAT` (grab_properties.py line 23). -/
def LAT : String := " LATTICE PARAMETERS  (ANGSTROMS AND DEGREES) - PRIMITIVE CELL"

/-- Source constant `CART` (grab_properties.py line 24). -/
def CART : String := " CARTESIAN COORDINATES - PRIMITIVE CELL"

/-- Source constant `INDGAP` (grab_properties.py line 26). -/
def INDGAP : String := " INDIRECT ENERGY BAND GAP:"

/-- Source constant `DIRGAP` (grab_properties.py line 27). -/
def DIRGAP : String := " DIRECT ENERGY BAND GAP:"

/-- Source constant `COND` (grab_properties.py line 45). -/
def COND : String := " POSSIBLY CONDUCTING STATE"

/-- The slab-analysis loop's tracked mutable scalars.  `elSize` tracks
`len(el)`: the element array starts as `np.zeros(99)` (line 54) and is
reassigned to `np.zeros(20)` at the end of every iteration that reaches
the IAD block (line 129), which makes later Cartesian-window stores
`el[i-md-5]` with index ≥ 20 raise `IndexError`. -/
structure SlabState where
  md : ℤ
  id : ℤ
  atoms : ℤ
  elSize : ℤ
  E_slb : ℚ
  state_slb : String
  Ebg_slb : ℚ
  GAPTYPE_slb : String
deriving Repr, DecidableEq

/-- Lines 71–72: `atoms = int(line.split()[-1])` on the
" NUMBER OF IRREDUCIBLE" anchor. -/
def stepAtoms (line : String) (s : SlabState) : Option SlabState :=
  if pyStartsWith line " NUMBER OF IRREDUCIBLE" then
    (pyIdx (pySplit line) (-1) >>= pyInt).map (fun v => { s with atoms := v })
  else some s

/-- Lines 78–83: inside the Cartesian-coordinates window, parse tokens
[-5], [-3], [-2], [-1] as floats and store them at index `i - md - 5`
into `el` (current size `elSize`, after a possible line-129 reset to 20)
and into the size-99 arrays `x`, `y`, `z`.  The stored values feed only
untracked outputs, but both failure modes are kept: a `ValueError` from
`float(...)` and an `IndexError` from a store at an index beyond the
array length (the index is ≥ -1 inside the window, so only the upper
bound can fail; the guarded `el[i-md-11] -= 200` of line 80 stays within
bounds whenever the line-79 store did). -/
def stepPositions (i : ℤ) (line : String) (s : SlabState) : Option SlabState :=
  if s.md + 4 ≤ i ∧ i ≤ s.md + s.atoms + 3 then
    (pyIdx (pySplit line) (-5) >>= pyFloat).bind fun _ =>
    if s.elSize ≤ i - s.md - 5 then none else  -- line 79: el[i-md-5] store
    (pyIdx (pySplit line) (-3) >>= pyFloat).bind fun _ =>
    if 99 ≤ i - s.md - 5 then none else        -- line 81: x[i-md-5] store
    (pyIdx (pySplit line) (-2) >>= pyFloat).bind fun _ =>
    (pyIdx (pySplit line) (-1) >>= pyFloat).map fun _ => s
  else some s

/-- Lines 88–97: two lines below the lattice-parameters anchor, parse the
seven cell numbers A, B, C, alpha, beta, gamma, V (feeding only untracked
outputs; the parse failures are kept). -/
def stepCell (i : ℤ) (line : String) (s : SlabState) : Option SlabState :=
  if i = s.id + 2 then
    (pyIdx (pySplit line) 0 >>= pyFloat).bind fun _ =>
    (pyIdx (pySplit line) 1 >>= pyFloat).bind fun _ =>
    (pyIdx (pySplit line) 2 >>= pyFloat).bind fun _ =>
    (pyIdx (pySplit line) 3 >>= pyFloat).bind fun _ =>
    (pyIdx (pySplit line) 4 >>= pyFloat).bind fun _ =>
    (pyIdx (pySplit line) 5 >>= pyFloat).bind fun _ =>
    (pyIdx (pySplit line) 6 >>= pyFloat).map fun _ => s
  else some s

/-- Lines 104–107: `E_slb = float(line.split()[3])` on the "ETOT(AU)"
anchor. -/
def stepEtot (line : String) (s : SlabState) : Option SlabState :=
  if pyIn "ETOT(AU)" line then
    (pyIdx (pySplit line) 3 >>= pyFloat).map (fun v => { s with E_slb := v })
  else some s

/-- Lines 110–116: a direct/indirect gap-report line overwrites
`Ebg_slb` with its parsed value and sets `GAPTYPE_slb`. -/
def stepGap (line : String) (s : SlabState) : Option SlabState :=
  if pyStartsWith line INDGAP || pyStartsWith line DIRGAP then
    (pyIdx (pySplit line) (-2) >>= pyFloat).map fun v =>
      let g1 := { s with Ebg_slb := v }
      let g2 := if pyStartsWith line INDGAP then { g1 with GAPTYPE_slb := "INDIRECT" } else g1
      if pyStartsWith line DIRGAP then { g2 with GAPTYPE_slb := "DIRECT" } else g2
  else some s

/-- Lines 119–129: the per-iteration SEMI/INSU reclassification, the
`Ebg_slb > 100: continue` guard, and the IAD block, whose `nCr(atoms, 2)`
raises for `atoms < 2` (factorial of a negative number) and whose pair
loop indexes the size-99 position arrays, raising for `atoms > 99`; on
success, line 129 reassigns `el = np.zeros(20)`. -/
def stepClassifyTail (s8 : SlabState) : Option SlabState :=
  let s9 := if s8.Ebg_slb < 9 ∧ s8.Ebg_slb > 0 then { s8 with state_slb := "SEMI" } else s8
  let s10 := if s9.Ebg_slb > 9 ∧ s9.Ebg_slb < 10000 then { s9 with state_slb := "INSU" } else s9
  if s10.Ebg_slb > 100 then some s10
  else if s10.atoms < 2 ∨ 99 < s10.atoms then none
  else some { s10 with elSize := 20 }

/-- One iteration of the slab-analysis `for i, line in enumerate(slb)`
loop (grab_properties.py lines 69–129), acting on the tracked scalars;
`none` models a raised exception. -/
def slabStep (i : ℤ) (line : String) (s0 : SlabState) : Option SlabState :=
  (stepAtoms line s0).bind fun s1 =>
  let s2 := if pyStartsWith line CART then { s1 with md := i } else s1
  if pyIn " PROCESS" line then some { s2 with md := s2.md + 1 }
  else
    (stepPositions i line s2).bind fun s3 =>
    let s4 := if pyIn LAT line then { s3 with id := i } else s3
    (stepCell i line s4).bind fun s5 =>
    let s6 :=
      if pyStartsWith line COND then { s5 with state_slb := "COND", Ebg_slb := 0 } else s5
    (stepEtot line s6).bind fun s7 =>
    (stepGap line s7).bind fun s8 =>
    stepClassifyTail s8

/-- Initial values of the tracked scalars (grab_properties.py lines
54–68; `el = np.zeros(99)` gives the initial `elSize`). -/
def slabInit : SlabState :=
  { md := 9999, id := 9999, atoms := 99, elSize := 99, E_slb := 999999
    state_slb := "Null", Ebg_slb := 999999, GAPTYPE_slb := "Null" }

/-- Run the slab loop from line index `i`. -/
def slabScanAux : ℤ → List String → SlabState → Option SlabState
  | _, [], s => some s
  | i, l :: ls, s => slabStep i l s >>= slabScanAux (i + 1) ls

/-- Full slab-analysis scan of a log (the `for i, line in enumerate(slb)`
loop of grab_properties.py). -/
def slabScan (lines : List String) : Option SlabState :=
  slabScanAux 0 lines slabInit

/-! ## `NewCifToD12.py` — deck-generation numeric formatting and
cell-parameter line -/

/-- `format_crystal_float` (NewCifToD12.py lines 329–358), float path.
(The `isinstance(value, int)` early return applies only to Python `int`
inputs; every call site passes floats, modelled here as ℚ.) -/
def format_crystal_float (value : ℚ) : String :=
  let abs_value := |value|
  if abs_value = 0 then "0.0"
  else if abs_value < mkRat 1 10000 then
    let s := fmtFixed value 10
    if pyIn "." s then pyRstrip (pyRstrip s '0') '.' else fmtFixed value 1
  else
    let s := fmtFixed value 8
    if pyIn "." s then pyRstrip (pyRstrip s '0') '.' else fmtFixed value 1

/-- `generate_unit_cell_line` (NewCifToD12.py lines 661–688); `none`
models the `ValueError` raised for a space group outside 1–230. -/
def generate_unit_cell_line (spacegroup : ℤ) (a b c alpha beta gamma : ℚ) :
    Option String :=
  if 1 ≤ spacegroup ∧ spacegroup ≤ 2 then
    some (fmtFixed a 8 ++ " " ++ fmtFixed b 8 ++ " " ++ fmtFixed c 8 ++ " "
      ++ fmtFixed alpha 6 ++ " " ++ fmtFixed beta 6 ++ " " ++ fmtFixed gamma 6
      ++ " #a,b,c,alpha,beta,gamma Triclinic")
  else if 3 ≤ spacegroup ∧ spacegroup ≤ 15 then
    some (fmtFixed a 8 ++ " " ++ fmtFixed b 8 ++ " " ++ fmtFixed c 8 ++ " "
      ++ fmtFixed beta 6 ++ " #a,b,c,beta Monoclinic alpha = gamma = 90")
  else if 16 ≤ spacegroup ∧ spacegroup ≤ 74 then
    some (fmtFixed a 8 ++ " " ++ fmtFixed b 8 ++ " " ++ fmtFixed c 8
      ++ " #a,b,c Orthorhombic alpha = beta = gamma = 90")
  else if 75 ≤ spacegroup ∧ spacegroup ≤ 142 then
    some (fmtFixed a 8 ++ " " ++ fmtFixed c 8
      ++ " #a=b,c Tetragonal alpha = beta = gamma = 90")
  else if 143 ≤ spacegroup ∧ spacegroup ≤ 167 then
    some (fmtFixed a 8 ++ " " ++ fmtFixed c 8
      ++ " #a=b,c Trigonal alpha = beta = 90, gamma = 120")
  else if 168 ≤ spacegroup ∧ spacegroup ≤ 194 then
    some (fmtFixed a 8 ++ " " ++ fmtFixed c 8
      ++ " #a=b,c Hexagonal alpha = beta = 90, gamma = 120")
  else if 195 ≤ spacegroup ∧ spacegroup ≤ 230 then
    some (fmtFixed a 8 ++ " #a=b=c cubic alpha = beta = gamma = 90")
  else none

/-- The branch-selection ladder of `generate_unit_cell_line`
(NewCifToD12.py lines 674–688) in isolation: which crystal-system branch
a space-group number selects (1 triclinic … 7 cubic, 0 the `ValueError`
branch). -/
def unitCellSystemIndex (spacegroup : ℤ) : ℕ :=
  if 1 ≤ spacegroup ∧ spacegroup ≤ 2 then 1
  else if 3 ≤ spacegroup ∧ spacegroup ≤ 15 then 2
  else if 16 ≤ spacegroup ∧ spacegroup ≤ 74 then 3
  else if 75 ≤ spacegroup ∧ spacegroup ≤ 142 then 4
  else if 143 ≤ spacegroup ∧ spacegroup ≤ 167 then 5
  else if 168 ≤ spacegroup ∧ spacegroup ≤ 194 then 6
  else if 195 ≤ spacegroup ∧ spacegroup ≤ 230 then 7
  else 0

/-! ## `create_band_d3.py` — k-path template selection -/

/-- Source module constant `dir` (create_band_d3.py line 8). -/
def writed3_dir : String := "/mnt/home/djokicma/bin"

/-- One matched template branch body of `writed3`: the count-header line
followed by the template file's lines.  `lib` maps a template path to its
file contents (the template files live outside this repository). -/
def writeTemplate (lib : String → List String) (path mid : String)
    (orbital_num : ℤ) : List String :=
  let d3_lines := lib path
  (toString ((d3_lines.length : ℤ) - 1) ++ mid ++ toString orbital_num ++ " 1 0\n")
    :: d3_lines

/-- `writed3` (create_band_d3.py lines 35–189) as the ordered list of
strings written to the .d3 file. -/
def writed3 (sym_num : ℤ) (sym_name : String) (orbital_num : ℤ)
    (lib : String → List String) (output_name : String) : List String :=
  ["NEWK\n48 48\nBAND\n", output_name ++ "\n"] ++
  (if sym_num ≤ 2 then
    writeTemplate lib (writed3_dir ++ "/d3_input/Triclinic-Explicit.d3") " 2 1000 1 " orbital_num
  else if 3 ≤ sym_num ∧ sym_num < 16 then
    (if sym_name = "P" then
      writeTemplate lib (writed3_dir ++ "/d3_input/Monoclinic_Simple.d3") " 0 1000 1 " orbital_num
     else []) ++
    (if sym_name = "C" then
      writeTemplate lib (writed3_dir ++ "/d3_input/Monoclinic_AC.d3") " 0 1000 1 " orbital_num
     else [])
  else if 16 ≤ sym_num ∧ sym_num < 75 then
    (if sym_name = "P" then
      writeTemplate lib (writed3_dir ++ "/d3_input/Orthorombic_Simple.d3") " 0 1000 1 " orbital_num
     else []) ++
    (if sym_name = "C" then
      writeTemplate lib (writed3_dir ++ "/d3_input/Orthorombic_AB.d3") " 0 1000 1 " orbital_num
     else []) ++
    (if sym_name = "F" then
      writeTemplate lib (writed3_dir ++ "/d3_input/Orthorombic_FC.d3") " 0 1000 1 " orbital_num
     else []) ++
    (if sym_name = "I" then
      writeTemplate lib (writed3_dir ++ "/d3_input/Orthorombic_BC.d3") " 0 1000 1 " orbital_num
     else []) ++
    (if sym_name = "A" then
      writeTemplate lib (writed3_dir ++ "/d3_input/Orthorombic_AB.d3") " 0 1000 1 " orbital_num
     else [])
  else if 75 ≤ sym_num ∧ sym_num < 143 then
    (if sym_name = "I" then
      writeTemplate lib (writed3_dir ++ "/d3_input/Tetragonal_BC.d3") " 0 1000 1 " orbital_num
     else []) ++
    (if sym_name = "P" then
      writeTemplate lib (writed3_dir ++ "/d3_input/Tetragonal_Simple.d3") " 0 1000 1 " orbital_num
     else [])
  else if 143 ≤ sym_num ∧ sym_num < 168 then
    (if sym_name = "P" then
      writeTemplate lib (writed3_dir ++ "/d3_input/Hexagonal.d3") " 0 1000 1 " orbital_num
     else []) ++
    (if sym_name = "R" then
      writeTemplate lib (writed3_dir ++ "/d3_input/Rhombohedral.d3") " 0 1000 1 " orbital_num
     else [])
  else if 168 ≤ sym_num ∧ sym_num < 195 then
    writeTemplate lib (writed3_dir ++ "/d3_input/Hexagonal.d3") " 0 1000 1 " orbital_num
  else if 195 ≤ sym_num then
    (if sym_name = "P" then
      writeTemplate lib (writed3_dir ++ "/d3_input/Cubic_Simple.d3") " 0 1000 1 " orbital_num
     else []) ++
    (if sym_name = "F" then
      writeTemplate lib (writed3_dir ++ "/d3_input/Cubic_FC.d3") " 0 1000 1 " orbital_num
     else []) ++
    (if sym_name = "I" then
      writeTemplate lib (writed3_dir ++ "/d3_input/Cubic_BC.d3") " 0 1000 1 " orbital_num
     else [])
  else [])

/-- The outer `if/elif` range ladder of `writed3` (create_band_d3.py
lines 66, 74, 89, 125, 146, 161, 168) in isolation: which crystal-system
block a space-group number selects (1 triclinic … 7 cubic).  The ladder
is total on the integers (the integer gaps between branches are empty and
the last branch is unbounded above); 0 is unreachable for integers. -/
def writed3SystemIndex (sym_num : ℤ) : ℕ :=
  if sym_num ≤ 2 then 1
  else if 3 ≤ sym_num ∧ sym_num < 16 then 2
  else if 16 ≤ sym_num ∧ sym_num < 75 then 3
  else if 75 ≤ sym_num ∧ sym_num < 143 then 4
  else if 143 ≤ sym_num ∧ sym_num < 168 then 5
  else if 168 ≤ sym_num ∧ sym_num < 195 then 6
  else if 195 ≤ sym_num then 7
  else 0

/-- Modelled from the spec: the fixed crystal-system range table
"1–2 triclinic, 3–15 monoclinic, 16–74 orthorhombic, 75–142 tetragonal,
143–167 trigonal, 168–194 hexagonal, 195–230 cubic" (spec §4.2, §8),
as a reference classification for the refinement claim C2. -/
def specSystemIndex (n : ℤ) : ℕ :=
  if 1 ≤ n ∧ n ≤ 2 then 1
  else if 3 ≤ n ∧ n ≤ 15 then 2
  else if 16 ≤ n ∧ n ≤ 74 then 3
  else if 75 ≤ n ∧ n ≤ 142 then 4
  else if 143 ≤ n ∧ n ≤ 167 then 5
  else if 168 ≤ n ∧ n ≤ 194 then 6
  else if 195 ≤ n ∧ n ≤ 230 then 7
  else 0

/-! ## `getWF.py` — work-function extraction -/

/-- Hartree→eV conversion constant `27.2114` (getWF.py lines 28–37,
grab_properties.py line 28). -/
def HeV : ℚ := mkRat 272114 10000

/-- The CSV row `getWF` assembles for one material (getWF.py line 39),
excluding the material name. -/
structure WFRow where
  Vtop : ℚ
  Vbot : ℚ
  WF0 : ℚ
  WF1 : ℚ
  WFmax : ℚ
  WFmin : ℚ
  Vmax : ℚ
  Vmin : ℚ
  Vavg : ℚ
  EF_eV : ℚ
deriving Repr, DecidableEq

/-- The `FERMI ENERGY` scan of `getWF` (getWF.py lines 16–19): the last
matching line's final token wins; `EF` starts at 0 and keeps it when no
line matches. -/
def fermiScan (f5_lines : List String) : Option ℚ :=
  f5_lines.foldlM (fun (ef : ℚ) line =>
      if pyIn "FERMI ENERGY" line then pyIdx (pySplit line) (-1) >>= pyFloat
      else some ef) (0 : ℚ)

/-- The remainder of `getWF` (getWF.py lines 20–39) for a given Fermi
energy: read the potential profile and assemble the CSV row. -/
def getWF_core (EF : ℚ) (f4_lines : List String) : Option WFRow := do
  let zV ← f4_lines.foldlM (fun (acc : List ℚ × List ℚ) line =>
      if pyStartsWith line "#" || pyStartsWith line "@" then some acc
      else do
        let t0 ← pyIdx (pySplit line) 0 >>= pyFloat
        let t1 ← pyIdx (pySplit line) 1 >>= pyFloat
        some (acc.1 ++ [t0], acc.2 ++ [t1])) (([], []) : List ℚ × List ℚ)
  let V := zV.2
  let V0 ← V.head?
  let Vlast ← V.getLast?
  let Vtop := qMul V0 HeV
  let Vbot := qMul Vlast HeV
  let Vmax := qMax Vtop Vbot
  let Vmin := qMin Vtop Vbot
  let Vavg := qDiv (qAdd Vtop Vbot) (mkRat 2 1)
  let WF0 := qMul (qSub V0 EF) HeV
  let WF1 := qMul (qSub Vlast EF) HeV
  let WFmax := qMax WF0 WF1
  let WFmin := qMin WF0 WF1
  let EF_eV := qMul EF HeV
  some ⟨Vtop, Vbot, WF0, WF1, WFmax, WFmin, Vmax, Vmin, Vavg, EF_eV⟩

/-- `getWF` (getWF.py lines 9–40) on the two input files' lines (`f5` =
`*_POTC.out`, `f4` = `*_POTC.POTC.dat`), both files present; `none`
models a raised exception. -/
def getWF (f5_lines f4_lines : List String) : Option WFRow := do
  let EF ← fermiScan f5_lines
  getWF_core EF f4_lines

/-! ## `crystal_queue_manager.py` — job-status tracker -/

/-- The persisted status store
`{"submitted": {name: id}, "pending": [name], "completed": [name]}`;
the dict is modelled as an association list in insertion order. -/
structure JobStatus where
  submitted : List (String × String)
  pending : List String
  completed : List String
deriving Repr, DecidableEq

/-- `default_status` (crystal_queue_manager.py line 28). -/
def default_status : JobStatus := ⟨[], [], []⟩

/-- Outcome of probing one candidate status-file location in
`load_status`: the path does not exist, it exists but reading/parsing
raises, or it loads. -/
inductive LoadAttempt where
  | absent
  | unreadable
  | ok (data : JobStatus)
deriving Repr, DecidableEq

/-- Whether a load attempt succeeded. -/
def LoadAttempt.isOk : LoadAttempt → Bool
  | .ok _ => true
  | _ => false

/-- `load_status` (crystal_queue_manager.py lines 26–49): first readable
candidate location wins; with none, the fresh `default_status`. -/
def load_status : List LoadAttempt → JobStatus
  | [] => default_status
  | .ok data :: _ => data
  | .absent :: rest => load_status rest
  | .unreadable :: rest => load_status rest

/-- The new-file check of `update_job_status` for one discovered job name
(crystal_queue_manager.py lines 130–134). -/
def scanD12Step (st : JobStatus) (job_name : String) : JobStatus :=
  if job_name ∉ st.submitted.map Prod.fst ∧
      job_name ∉ st.pending ∧
      job_name ∉ st.completed then
    { st with pending := st.pending ++ [job_name] }
  else st

/-- The new-d12 scan phase of `update_job_status`
(crystal_queue_manager.py lines 127–134). -/
def scanD12 (all_d12 : List String) (st : JobStatus) : JobStatus :=
  all_d12.foldl scanD12Step st

/-- One step of the completion reconciliation
(crystal_queue_manager.py lines 153–157): a submitted job whose ID is
not in the scheduler's live list is popped from `submitted` and, when
absent, appended to `completed`. -/
def reconcileStep (running_jobs : List String) (st : JobStatus)
    (p : String × String) : JobStatus :=
  if p.2 ∈ running_jobs then st
  else
    { st with
      submitted := st.submitted.filter (fun q => q.1 ≠ p.1)
      completed :=
        if p.1 ∈ st.completed then st.completed
        else st.completed ++ [p.1] }

/-- `update_job_status` (crystal_queue_manager.py lines 124–161):
scan for new .d12 names, then reconcile `submitted` against the
scheduler's live job IDs (`running_jobs`, which is `[]` when the
`squeue` query times out or raises, or when its output is empty).
The reconciliation iterates a snapshot `list(submitted.items())`. -/
def update_job_status (all_d12 running_jobs : List String) (st : JobStatus) :
    JobStatus :=
  if (scanD12 all_d12 st).submitted = [] then scanD12 all_d12 st
  else (scanD12 all_d12 st).submitted.foldl (reconcileStep running_jobs)
    (scanD12 all_d12 st)

/-- `submit_job` (crystal_queue_manager.py lines 163–197): on success
(`ok`, the sbatch output contained "Submitted batch job") record
`name → job_id` in `submitted` (dict assignment: overwrite if present)
and drop the name from `pending` (guarded `remove`); every failure path
returns with the status unchanged. -/
def submit_job (job_name job_id : String) (ok : Bool) (st : JobStatus) :
    JobStatus :=
  if ok then
    { st with
      submitted :=
        if job_name ∈ st.submitted.map Prod.fst then
          st.submitted.map (fun q => if q.1 = job_name then (q.1, job_id) else q)
        else st.submitted ++ [(job_name, job_id)]
      pending := st.pending.erase job_name }
  else st

/-- Python `s.split('\n')` on a single-character separator, keeping
empty pieces. -/
def splitNlAux : List Char → List Char → List String
  | [], cur => [String.mk cur.reverse]
  | c :: cs, cur =>
    if c = '\n' then String.mk cur.reverse :: splitNlAux cs []
    else splitNlAux cs (c :: cur)

/-- Python `s.split('\n')`. -/
def pySplitNl (s : String) : List String :=
  splitNlAux s.toList []

/-- Python `str.strip()`. -/
def pyStrip (s : String) : String :=
  String.mk (((s.toList.dropWhile (fun c => pyIsSpace c)).reverse.dropWhile
    (fun c => pyIsSpace c)).reverse)

/-- `get_current_jobs` (crystal_queue_manager.py lines 110–122): count
lines of `squeue` stdout; `none` models `TimeoutExpired` or any other
exception, returning 0. -/
def get_current_jobs (squeue_stdout : Option String) : ℕ :=
  match squeue_stdout with
  | none => 0
  | some out =>
    let stripped := pyStrip out
    if stripped = "" then 0 else (pySplitNl stripped).length

/-- The submission-capacity computation of `process_queue`
(crystal_queue_manager.py lines 204–214): slots after the reserve, 0 when
the reserve would be violated, capped by `max_submit` when given. -/
def process_queue_slots (max_jobs reserve_slots : ℤ) (max_submit : Option ℤ)
    (squeue_stdout : Option String) : ℤ :=
  if max 0 (max_jobs - (get_current_jobs squeue_stdout : ℤ)) ≤ reserve_slots then 0
  else
    match max_submit with
    | none => max 0 (max_jobs - (get_current_jobs squeue_stdout : ℤ)) - reserve_slots
    | some m =>
      min (max 0 (max_jobs - (get_current_jobs squeue_stdout : ℤ)) - reserve_slots) m

/-- The submission loop bound of `process_queue`
(crystal_queue_manager.py line 233): `pending_jobs[:available_slots]`. -/
def process_queue_submit_list (pending_jobs : List String) (slots : ℤ) :
    List String :=
  pending_jobs.take slots.toNat

/-! ## Observation helpers for deck lines -/

/-- The part of a generated deck line before the inline `#` comment. -/
def beforeHash (s : String) : String :=
  String.mk (s.toList.takeWhile (fun c => c ≠ '#'))

/-- The whitespace-delimited tokens of a line that parse as Python
floats. -/
def numericTokens (s : String) : List String :=
  (pySplit s).filter (fun t => (pyFloat t).isSome)

end Helpscripts

namespace Helpscripts

/-! ## C1 — band-gap extraction precedence -/

/-- C1 counterexample: in the slab-analysis loop of grab_properties.py,
a gap-report line occurring *after* the " POSSIBLY CONDUCTING STATE"
marker overwrites the conducting override: the scan of a log holding the
conducting marker first and an indirect-gap report second ends with
gap 1.5, type "INDIRECT", state "SEMI" — not gap 0 / conducting.  The
claim's order-independent conducting precedence is therefore false. -/
theorem gap_line_after_cond_overrides :
    (slabScan [" POSSIBLY CONDUCTING STATE",
               " INDIRECT ENERGY BAND GAP:    1.5000 EV"]).map
        (fun s => (s.Ebg_slb, s.state_slb, s.GAPTYPE_slb))
      = some (mkRat 3 2, "SEMI", "INDIRECT") := by decide

theorem slabScanAux_append (ls ms : List String) (i : ℤ) (s : SlabState) :
    slabScanAux i (ls ++ ms) s =
      (slabScanAux i ls s).bind (fun t => slabScanAux (i + ls.length) ms t) := by
  induction ls generalizing i s with
  | nil => simp [slabScanAux]
  | cons l ls ih =>
    simp only [List.cons_append, slabScanAux, List.length_cons]
    cases h : slabStep i l s with
    | none => simp
    | some t =>
      simp only [Option.bind_eq_bind, Option.some_bind, List.append_eq]
      rw [ih]
      have hlen : i + 1 + (ls.length : ℤ) = i + (((ls.length + 1 : ℕ)) : ℤ) := by
        push_cast
        ring
      rw [hlen]

theorem slabStep_cond (i : ℤ) (s : SlabState)
    (hwin : ¬ (s.md + 4 ≤ i ∧ i ≤ s.md + s.atoms + 3))
    (hid : i ≠ s.id + 2)
    (hat2 : 2 ≤ s.atoms) (hat99 : s.atoms ≤ 99) :
    slabStep i COND s
      = some { s with state_slb := "COND", Ebg_slb := 0, elSize := 20 } := by
  have h1 : pyStartsWith COND " NUMBER OF IRREDUCIBLE" = false := by decide
  have h2 : pyStartsWith COND CART = false := by decide
  have h3 : pyIn " PROCESS" COND = false := by decide
  have h4 : pyIn LAT COND = false := by decide
  have h5 : pyStartsWith COND COND = true := by decide
  have h6 : pyIn "ETOT(AU)" COND = false := by decide
  have h7 : pyStartsWith COND INDGAP = false := by decide
  have h8 : pyStartsWith COND DIRGAP = false := by decide
  unfold slabStep stepAtoms stepPositions stepCell stepEtot stepGap stepClassifyTail
  rw [h1, h2, h3, h4, h5, h6, h7, h8]
  simp only [Bool.false_eq_true, if_false, if_true, Option.some_bind, Bool.or_self]
  rw [if_neg hwin]
  simp only [Option.some_bind]
  rw [if_neg hid]
  simp only [Option.some_bind]
  norm_num
  intro hcon
  exact absurd hcon (by omega)

/-- C1 theorem (amended): the slab scraper applies last-marker-wins
precedence.  When the " POSSIBLY CONDUCTING STATE" marker occurs after
the whole rest of the log — in particular after every direct/indirect
gap-report line — and its line index falls outside the positional parse
windows, the reported band gap is 0 and the state is "COND" (the gap
*type* field keeps its previous value; the `el` array is reset to size
20 by the iteration's IAD block). -/
theorem cond_marker_last_forces_zero_gap (ls : List String) (s : SlabState)
    (h : slabScan ls = some s)
    (hwin : ¬ (s.md + 4 ≤ (ls.length : ℤ) ∧ (ls.length : ℤ) ≤ s.md + s.atoms + 3))
    (hid : (ls.length : ℤ) ≠ s.id + 2)
    (hat2 : 2 ≤ s.atoms) (hat99 : s.atoms ≤ 99) :
    slabScan (ls ++ [COND])
      = some { s with state_slb := "COND", Ebg_slb := 0, elSize := 20 } := by
  unfold slabScan at h ⊢
  rw [slabScanAux_append, h, Option.some_bind]
  have h0 : (0 : ℤ) + (ls.length : ℤ) = (ls.length : ℤ) := by ring
  rw [h0]
  simp only [slabScanAux, slabStep_cond (ls.length) s hwin hid hat2 hat99,
    Option.some_bind]
  rfl

/-- Witness for `cond_marker_last_forces_zero_gap` at a concrete log:
an indirect-gap report followed by the conducting marker ends at gap 0,
state "COND". -/
theorem cond_marker_last_forces_zero_gap_witness :
    slabScan ([" INDIRECT ENERGY BAND GAP:    1.5000 EV"] ++ [COND])
      = some { md := 9999, id := 9999, atoms := 99, elSize := 20, E_slb := 999999,
               state_slb := "COND", Ebg_slb := 0, GAPTYPE_slb := "INDIRECT" } := by
  have h : slabScan [" INDIRECT ENERGY BAND GAP:    1.5000 EV"]
      = some { md := 9999, id := 9999, atoms := 99, elSize := 20, E_slb := 999999,
               state_slb := "SEMI", Ebg_slb := mkRat 3 2, GAPTYPE_slb := "INDIRECT" } := by
    decide
  exact cond_marker_last_forces_zero_gap _ _ h (by decide) (by decide)
    (by decide) (by decide)

/-! ## C2 — space-group → crystal-system range table -/

/-- C2: over every space-group number 1–230, the deck generator's
cell-parameter branch ladder (`unitCellSystemIndex`, transcribing
`generate_unit_cell_line`) and the band-d3 generator's template ladder
(`writed3SystemIndex`, transcribing `writed3`) both classify exactly by
the spec's fixed range table `specSystemIndex`, including every
boundary. -/
theorem crystal_system_ranges_match_spec :
    ∀ n ∈ Finset.Icc (1 : ℤ) 230,
      unitCellSystemIndex n = specSystemIndex n ∧
      writed3SystemIndex n = specSystemIndex n := by decide

/-- Witness for `crystal_system_ranges_match_spec` at the 142/143
boundary. -/
theorem crystal_system_ranges_match_spec_witness :
    (143 : ℤ) ∈ Finset.Icc (1 : ℤ) 230 ∧
      (unitCellSystemIndex 143 = specSystemIndex 143 ∧
       writed3SystemIndex 143 = specSystemIndex 143) :=
  ⟨by decide, crystal_system_ranges_match_spec 143 (by decide)⟩

end Helpscripts

namespace Helpscripts

/-! ## C4 — missing FERMI ENERGY anchor in getWF -/

/-- C4 counterexample: on a `*_POTC.out` log with no `FERMI ENERGY` line
and a well-formed potential profile, `getWF` emits a full numeric row —
`EF_eV = 0` and numeric work functions computed with the default
`EF = 0` — rather than any absent/not-found result. -/
theorem getWF_no_fermi_emits_numeric_row :
    (getWF [" SOME LINE"] ["0.0 0.5", "10.0 0.3"]).map
        (fun r => (r.EF_eV, r.WF0, r.WF1))
      = some (0, mkRat 136057 10000, mkRat 408171 50000) := by decide

theorem fermiScan_no_match (f5 : List String)
    (h : ∀ l ∈ f5, pyIn "FERMI ENERGY" l = false) :
    fermiScan f5 = some 0 := by
  unfold fermiScan
  generalize (0 : ℚ) = ef
  induction f5 generalizing ef with
  | nil => rfl
  | cons l ls ih =>
    rw [List.foldlM_cons, h l (List.mem_cons_self l ls)]
    simp only [Bool.false_eq_true, if_false]
    exact ih (fun x hx => h x (List.mem_cons_of_mem l hx)) ef

theorem getWF_core_zero_EF (f4 : List String) (r : WFRow)
    (h : getWF_core 0 f4 = some r) :
    r.EF_eV = 0 ∧ r.WF0 = r.Vtop ∧ r.WF1 = r.Vbot := by
  unfold getWF_core at h
  simp only [Option.bind_eq_bind, Option.bind_eq_some] at h
  obtain ⟨zv, _, h⟩ := h
  obtain ⟨v0, _, h⟩ := h
  obtain ⟨vlast, _, h⟩ := h
  cases h
  refine ⟨?_, ?_, ?_⟩ <;> simp [qMul_eq, qSub_eq]

/-- C4 theorem (amended): when no line of the `*_POTC.out` log contains
`FERMI ENERGY`, `getWF` does not raise on that account — it behaves
exactly as on an empty log, silently keeping the default `EF = 0` — and
any row it emits carries numeric Fermi-dependent fields: `EF_eV = 0` and
work functions equal to the raw potentials (`WF0 = Vtop`, `WF1 = Vbot`),
not an explicit absent marker. -/
theorem getWF_no_fermi_defaults_to_zero (f5_lines f4_lines : List String)
    (h : ∀ l ∈ f5_lines, pyIn "FERMI ENERGY" l = false) :
    getWF f5_lines f4_lines = getWF [] f4_lines ∧
    ∀ r, getWF f5_lines f4_lines = some r →
      r.EF_eV = 0 ∧ r.WF0 = r.Vtop ∧ r.WF1 = r.Vbot := by
  have hscan : fermiScan f5_lines = some 0 := fermiScan_no_match f5_lines h
  have heq : getWF f5_lines f4_lines = getWF_core 0 f4_lines := by
    unfold getWF
    rw [hscan]
    rfl
  constructor
  · rw [heq]
    rfl
  · intro r hr
    rw [heq] at hr
    exact getWF_core_zero_EF f4_lines r hr

/-- Witness for `getWF_no_fermi_defaults_to_zero` on a concrete
FERMI-free log. -/
theorem getWF_no_fermi_defaults_to_zero_witness :
    getWF ["NO ANCHOR HERE"] ["0.0 0.5", "10.0 0.3"]
        = getWF [] ["0.0 0.5", "10.0 0.3"] ∧
      ∀ r, getWF ["NO ANCHOR HERE"] ["0.0 0.5", "10.0 0.3"] = some r →
        r.EF_eV = 0 ∧ r.WF0 = r.Vtop ∧ r.WF1 = r.Vbot :=
  getWF_no_fermi_defaults_to_zero ["NO ANCHOR HERE"] ["0.0 0.5", "10.0 0.3"]
    (by decide)

/-! ## C5 — band-d3 template-selection totality -/

/-- C5 counterexample: `writed3` on a monoclinic space group (4) with
centering letter "F" — a combination absent from the template library —
silently writes only the NEWK/BAND header and no k-path block, raising
no error at all. -/
theorem writed3_monoclinic_F_silent_header_only :
    writed3 4 "F" 10 (fun _ => ["X\n"]) "m.out"
      = ["NEWK\n48 48\nBAND\n", "m.out\n"] := by decide

/-- Whether `writed3`'s ladder has a template branch for the pair
`(sym_num, sym_name)`: the triclinic (≤ 2) and hexagonal (168–194)
blocks accept every centering letter, the others only the letters they
test for (create_band_d3.py lines 66–189). -/
def writed3HasBranch (sym_num : ℤ) (sym_name : String) : Prop :=
  sym_num ≤ 2 ∨
  (3 ≤ sym_num ∧ sym_num < 16 ∧ (sym_name = "P" ∨ sym_name = "C")) ∨
  (16 ≤ sym_num ∧ sym_num < 75 ∧
    (sym_name = "P" ∨ sym_name = "C" ∨ sym_name = "F" ∨ sym_name = "I" ∨
     sym_name = "A")) ∨
  (75 ≤ sym_num ∧ sym_num < 143 ∧ (sym_name = "I" ∨ sym_name = "P")) ∨
  (143 ≤ sym_num ∧ sym_num < 168 ∧ (sym_name = "P" ∨ sym_name = "R")) ∨
  (168 ≤ sym_num ∧ sym_num < 195) ∨
  (195 ≤ sym_num ∧ (sym_name = "P" ∨ sym_name = "F" ∨ sym_name = "I"))

/-- C5 theorem (amended): for every (space group, centering letter) pair
without a branch in `writed3`'s template table — monoclinic with a
letter outside {P, C}, orthorhombic outside {P, C, F, I, A}, tetragonal
outside {I, P}, trigonal outside {P, R}, cubic outside {P, F, I} —
`writed3` silently emits only the two header writes (NEWK/BAND and the
output name) with no k-path block and no error, for every template
library and orbital count. -/
theorem writed3_unmatched_combo_writes_header_only
    (sym_num : ℤ) (sym_name : String) (orbital_num : ℤ)
    (lib : String → List String) (output_name : String)
    (hno : ¬ writed3HasBranch sym_num sym_name) :
    writed3 sym_num sym_name orbital_num lib output_name
      = ["NEWK\n48 48\nBAND\n", output_name ++ "\n"] := by
  unfold writed3HasBranch at hno
  push_neg at hno
  obtain ⟨g1, g2, g3, g4, g5, g6, g7⟩ := hno
  unfold writed3
  rw [if_neg (by omega : ¬ sym_num ≤ 2)]
  by_cases h2 : 3 ≤ sym_num ∧ sym_num < 16
  · have hn := g2 h2.1 h2.2
    rw [if_pos h2, if_neg hn.1, if_neg hn.2]
    simp
  · rw [if_neg h2]
    by_cases h3 : 16 ≤ sym_num ∧ sym_num < 75
    · have hn := g3 h3.1 h3.2
      rw [if_pos h3, if_neg hn.1, if_neg hn.2.1, if_neg hn.2.2.1,
        if_neg hn.2.2.2.1, if_neg hn.2.2.2.2]
      simp
    · rw [if_neg h3]
      by_cases h4 : 75 ≤ sym_num ∧ sym_num < 143
      · have hn := g4 h4.1 h4.2
        rw [if_pos h4, if_neg hn.1, if_neg hn.2]
        simp
      · rw [if_neg h4]
        by_cases h5 : 143 ≤ sym_num ∧ sym_num < 168
        · have hn := g5 h5.1 h5.2
          rw [if_pos h5, if_neg hn.1, if_neg hn.2]
          simp
        · rw [if_neg h5]
          have h7 : 195 ≤ sym_num := by omega
          have hn := g7 h7
          rw [if_neg (by omega : ¬ (168 ≤ sym_num ∧ sym_num < 195)),
            if_pos h7, if_neg hn.1, if_neg hn.2.1, if_neg hn.2.2]
          simp

/-- Witness for `writed3_unmatched_combo_writes_header_only` at space
group 5, centering "I". -/
theorem writed3_unmatched_combo_writes_header_only_witness :
    writed3 5 "I" 12 (fun _ => []) "x.out"
      = ["NEWK\n48 48\nBAND\n", "x.out" ++ "\n"] :=
  writed3_unmatched_combo_writes_header_only 5 "I" 12 (fun _ => []) "x.out"
    (by unfold writed3HasBranch; decide)

/-! ## C6 — lattice-parameter numeric formatting -/

/-- C6 counterexample: the cell-parameter value written for a cubic
structure with `a = 5.0` is "5.00000000" — fixed decimal but with its
trailing zeros preserved, not trimmed (the trimming helper
`format_crystal_float` would have produced "5", and is not applied to
lattice parameters). -/
theorem lattice_value_keeps_trailing_zeros :
    (generate_unit_cell_line 225 5 5 5 90 90 90).map
        (fun l => ((pySplit l).headD "", pyEndsWith ((pySplit l).headD "") "0"))
      = some ("5.00000000", true) ∧
    format_crystal_float 5 = "5" := by
  exact ⟨by decide, by decide⟩

/-- C6 theorem (amended): every lattice-parameter value written by
`generate_unit_cell_line` is rendered in fixed decimal notation — for
every space group 1–230 the parameter portion of the line consists only
of digits, decimal points and spaces (never scientific notation) — but
at fixed precision with trailing zeros preserved (`a = 5.0` becomes
"5.00000000"); the trailing-zero-trimming `format_crystal_float`
(for which 5.0 ↦ "5") is not applied to lattice parameters. -/
theorem lattice_values_fixed_decimal_not_trimmed :
    (∀ sg ∈ Finset.Icc (1 : ℤ) 230,
      (generate_unit_cell_line sg 5 5 5 90 90 90).map
          (fun l => ((beforeHash l).toList.all
            (fun ch => ch.isDigit || ch = '.' || ch = ' ')))
        = some true) ∧
    (generate_unit_cell_line 225 5 5 5 90 90 90).map (fun l => (pySplit l).headD "")
      = some "5.00000000" ∧
    format_crystal_float 5 = "5" := by
  exact ⟨by decide, by decide, by decide⟩

/-- Witness for `lattice_values_fixed_decimal_not_trimmed` at space
group 225. -/
theorem lattice_values_fixed_decimal_not_trimmed_witness :
    (generate_unit_cell_line 225 5 5 5 90 90 90).map
        (fun l => ((beforeHash l).toList.all
          (fun ch => ch.isDigit || ch = '.' || ch = ' ')))
      = some true :=
  lattice_values_fixed_decimal_not_trimmed.1 225 (by decide)

/-! ## C7 — cell-parameter line shape by symmetry -/

/-- C7 counterexample: the full cubic cell-parameter line for space group
225 with `a = 5.0` contains *two* tokens that parse as floats — the
parameter "5.00000000" and the "90" inside the generated inline comment
"#a=b=c cubic alpha = beta = gamma = 90" — not exactly one. -/
theorem cubic_cell_line_two_numeric_tokens :
    (generate_unit_cell_line 225 5 5 5 90 90 90).map
        (fun l => (numericTokens l).length) = some 2 := by decide

/-- C7 theorem (amended): restricted to the parameter portion before the
inline `#` comment, the cubic line (space group 225, `a = 5.0`) carries
exactly one numeric token, and the triclinic line carries exactly the six
parameters in the fixed order a, b, c, alpha, beta, gamma. -/
theorem cell_line_parameter_tokens_by_symmetry :
    ((generate_unit_cell_line 225 5 5 5 90 90 90).map
        (fun l => numericTokens (beforeHash l)) = some ["5.00000000"]) ∧
    ((generate_unit_cell_line 1 (mkRat 5 4) (mkRat 3 2) (mkRat 7 4) 60 70 80).map
        (fun l => pySplit (beforeHash l))
      = some ["1.25000000", "1.50000000", "1.75000000",
              "60.000000", "70.000000", "80.000000"]) := by
  exact ⟨by decide, by decide⟩

end Helpscripts

namespace Helpscripts

/-! ## Queue-manager fold lemmas (shared by C3, C8, C9) -/

/-- A job name is known to the status store (dict key of `submitted`, or
member of `pending` / `completed`). -/
def memBuckets (x : String) (st : JobStatus) : Prop :=
  x ∈ st.submitted.map Prod.fst ∨ x ∈ st.pending ∨ x ∈ st.completed

theorem scanD12Step_submitted (st : JobStatus) (a : String) :
    (scanD12Step st a).submitted = st.submitted := by
  unfold scanD12Step
  split <;> rfl

theorem scanD12Step_completed (st : JobStatus) (a : String) :
    (scanD12Step st a).completed = st.completed := by
  unfold scanD12Step
  split <;> rfl

theorem scanD12_submitted (all : List String) (st : JobStatus) :
    (scanD12 all st).submitted = st.submitted := by
  induction all generalizing st with
  | nil => rfl
  | cons a all ih =>
    show (List.foldl scanD12Step (scanD12Step st a) all).submitted = st.submitted
    rw [show List.foldl scanD12Step (scanD12Step st a) all
          = scanD12 all (scanD12Step st a) from rfl, ih, scanD12Step_submitted]

theorem scanD12_completed (all : List String) (st : JobStatus) :
    (scanD12 all st).completed = st.completed := by
  induction all generalizing st with
  | nil => rfl
  | cons a all ih =>
    show (List.foldl scanD12Step (scanD12Step st a) all).completed = st.completed
    rw [show List.foldl scanD12Step (scanD12Step st a) all
          = scanD12 all (scanD12Step st a) from rfl, ih, scanD12Step_completed]

theorem scanD12Step_pending_cases (st : JobStatus) (a : String) :
    (scanD12Step st a).pending = st.pending ∨
      ((scanD12Step st a).pending = st.pending ++ [a] ∧ a ∉ st.pending) := by
  unfold scanD12Step
  split
  · next h => exact Or.inr ⟨rfl, h.2.1⟩
  · exact Or.inl rfl

theorem scanD12Step_memBuckets (st : JobStatus) (a x : String)
    (h : memBuckets x st) : memBuckets x (scanD12Step st a) := by
  rcases scanD12Step_pending_cases st a with hp | ⟨hp, _⟩ <;>
    rcases h with h | h | h <;>
      simp only [memBuckets, scanD12Step_submitted, scanD12Step_completed, hp] <;>
      first
        | exact Or.inl h
        | exact Or.inr (Or.inr h)
        | exact Or.inr (Or.inl h)
        | exact Or.inr (Or.inl (List.mem_append_left _ h))

theorem scanD12Step_mem_self (st : JobStatus) (a : String) :
    memBuckets a (scanD12Step st a) := by
  unfold scanD12Step memBuckets
  split
  · next h => exact Or.inr (Or.inl (List.mem_append_right _ (List.mem_singleton.mpr rfl)))
  · next h =>
    push_neg at h
    by_cases h1 : a ∈ st.submitted.map Prod.fst
    · exact Or.inl h1
    · by_cases h2 : a ∈ st.pending
      · exact Or.inr (Or.inl h2)
      · exact Or.inr (Or.inr (h h1 h2))

theorem scanD12_memBuckets (all : List String) (st : JobStatus) (x : String)
    (h : memBuckets x st) : memBuckets x (scanD12 all st) := by
  induction all generalizing st with
  | nil => exact h
  | cons a all ih =>
    exact ih (scanD12Step st a) (scanD12Step_memBuckets st a x h)

theorem scanD12_mem (all : List String) (st : JobStatus) (x : String)
    (h : x ∈ all) : memBuckets x (scanD12 all st) := by
  induction all generalizing st with
  | nil => cases h
  | cons a all ih =>
    rcases List.mem_cons.mp h with rfl | h
    · exact scanD12_memBuckets all (scanD12Step st x) x (scanD12Step_mem_self st x)
    · exact ih (scanD12Step st a) h

theorem scanD12_noop (all : List String) (st : JobStatus)
    (h : ∀ x ∈ all, memBuckets x st) : scanD12 all st = st := by
  induction all with
  | nil => rfl
  | cons a all ih =>
    have hstep : scanD12Step st a = st := by
      unfold scanD12Step
      rw [if_neg]
      have := h a (List.mem_cons_self a all)
      unfold memBuckets at this
      tauto
    show List.foldl scanD12Step (scanD12Step st a) all = st
    rw [hstep]
    exact ih (fun x hx => h x (List.mem_cons_of_mem a hx))

theorem scanD12_pending_nodup (all : List String) (st : JobStatus)
    (h : st.pending.Nodup) : (scanD12 all st).pending.Nodup := by
  induction all generalizing st with
  | nil => exact h
  | cons a all ih =>
    refine ih (scanD12Step st a) ?_
    rcases scanD12Step_pending_cases st a with hp | ⟨hp, hno⟩
    · rw [hp]; exact h
    · rw [hp]
      exact List.Nodup.append h (List.nodup_singleton a)
        (by simpa using hno)

theorem scanD12_pending_new (all : List String) (st : JobStatus) (x : String)
    (h : x ∈ (scanD12 all st).pending) :
    x ∈ st.pending ∨ (x ∉ st.submitted.map Prod.fst ∧ x ∉ st.completed) := by
  induction all generalizing st with
  | nil => exact Or.inl h
  | cons a all ih =>
    have h' := ih (scanD12Step st a) h
    rcases h' with h' | h'
    · unfold scanD12Step at h'
      by_cases hg : a ∉ st.submitted.map Prod.fst ∧ a ∉ st.pending ∧ a ∉ st.completed
      · rw [if_pos hg] at h'
        simp only [List.mem_append, List.mem_singleton] at h'
        rcases h' with h' | rfl
        · exact Or.inl h'
        · exact Or.inr ⟨hg.1, hg.2.2⟩
      · rw [if_neg hg] at h'
        exact Or.inl h'
    · rw [scanD12Step_submitted, scanD12Step_completed] at h'
      exact Or.inr h'

end Helpscripts

namespace Helpscripts

theorem reconcileStep_pending (r : List String) (st : JobStatus)
    (p : String × String) : (reconcileStep r st p).pending = st.pending := by
  unfold reconcileStep
  split <;> rfl

theorem reconcileStep_completed_mono (r : List String) (st : JobStatus)
    (p : String × String) (x : String) (h : x ∈ st.completed) :
    x ∈ (reconcileStep r st p).completed := by
  unfold reconcileStep
  split
  · exact h
  · simp only
    split
    · exact h
    · exact List.mem_append_left _ h

theorem reconcileStep_keys_sub (r : List String) (st : JobStatus)
    (p : String × String) (x : String)
    (h : x ∈ (reconcileStep r st p).submitted.map Prod.fst) :
    x ∈ st.submitted.map Prod.fst := by
  unfold reconcileStep at h
  split at h
  · exact h
  · simp only [List.mem_map] at h ⊢
    obtain ⟨q, hq, rfl⟩ := h
    exact ⟨q, (List.mem_filter.mp hq).1, rfl⟩

theorem reconcileStep_keys_or_completed (r : List String) (st : JobStatus)
    (p : String × String) (x : String)
    (h : x ∈ st.submitted.map Prod.fst ∨ x ∈ st.completed) :
    x ∈ (reconcileStep r st p).submitted.map Prod.fst ∨
      x ∈ (reconcileStep r st p).completed := by
  rcases h with h | h
  · unfold reconcileStep
    split
    · exact Or.inl h
    · by_cases hx : x = p.1
      · subst hx
        right
        simp only
        split
        · assumption
        · exact List.mem_append_right _ (List.mem_singleton.mpr rfl)
      · left
        simp only [List.mem_map] at h ⊢
        obtain ⟨q, hq, rfl⟩ := h
        exact ⟨q, List.mem_filter.mpr ⟨hq, by simpa using hx⟩, rfl⟩
  · exact Or.inr (reconcileStep_completed_mono r st p x h)

theorem reconcileStep_completed_nodup (r : List String) (st : JobStatus)
    (p : String × String) (h : st.completed.Nodup) :
    (reconcileStep r st p).completed.Nodup := by
  unfold reconcileStep
  split
  · exact h
  · simp only
    split
    · exact h
    · next hmem =>
      exact List.Nodup.append h (List.nodup_singleton _) (by simpa using hmem)

theorem reconcileStep_memBuckets (r : List String) (st : JobStatus)
    (p : String × String) (x : String) (h : memBuckets x st) :
    memBuckets x (reconcileStep r st p) := by
  unfold memBuckets at h ⊢
  rcases h with h | h | h
  · rcases reconcileStep_keys_or_completed r st p x (Or.inl h) with h' | h'
    · exact Or.inl h'
    · exact Or.inr (Or.inr h')
  · exact Or.inr (Or.inl (by rw [reconcileStep_pending]; exact h))
  · exact Or.inr (Or.inr (reconcileStep_completed_mono r st p x h))

theorem reconcile_fold_pending (r : List String) (snap : List (String × String))
    (st : JobStatus) :
    (snap.foldl (reconcileStep r) st).pending = st.pending := by
  induction snap generalizing st with
  | nil => rfl
  | cons q snap ih =>
    rw [List.foldl_cons, ih, reconcileStep_pending]

theorem reconcile_fold_completed_mono (r : List String)
    (snap : List (String × String)) (st : JobStatus) (x : String)
    (h : x ∈ st.completed) : x ∈ (snap.foldl (reconcileStep r) st).completed := by
  induction snap generalizing st with
  | nil => exact h
  | cons q snap ih =>
    rw [List.foldl_cons]
    exact ih _ (reconcileStep_completed_mono r st q x h)

theorem reconcile_fold_keys_sub (r : List String)
    (snap : List (String × String)) (st : JobStatus) (x : String)
    (h : x ∈ (snap.foldl (reconcileStep r) st).submitted.map Prod.fst) :
    x ∈ st.submitted.map Prod.fst := by
  induction snap generalizing st with
  | nil => exact h
  | cons q snap ih =>
    rw [List.foldl_cons] at h
    exact reconcileStep_keys_sub r st q x (ih _ h)

theorem reconcile_fold_keys_or_completed (r : List String)
    (snap : List (String × String)) (st : JobStatus) (x : String)
    (h : x ∈ st.submitted.map Prod.fst ∨ x ∈ st.completed) :
    x ∈ (snap.foldl (reconcileStep r) st).submitted.map Prod.fst ∨
      x ∈ (snap.foldl (reconcileStep r) st).completed := by
  induction snap generalizing st with
  | nil => exact h
  | cons q snap ih =>
    rw [List.foldl_cons]
    exact ih _ (reconcileStep_keys_or_completed r st q x h)

theorem reconcile_fold_completed_nodup (r : List String)
    (snap : List (String × String)) (st : JobStatus)
    (h : st.completed.Nodup) :
    (snap.foldl (reconcileStep r) st).completed.Nodup := by
  induction snap generalizing st with
  | nil => exact h
  | cons q snap ih =>
    rw [List.foldl_cons]
    exact ih _ (reconcileStep_completed_nodup r st q h)

theorem reconcile_fold_memBuckets (r : List String)
    (snap : List (String × String)) (st : JobStatus) (x : String)
    (h : memBuckets x st) : memBuckets x (snap.foldl (reconcileStep r) st) := by
  induction snap generalizing st with
  | nil => exact h
  | cons q snap ih =>
    rw [List.foldl_cons]
    exact ih _ (reconcileStep_memBuckets r st q x h)

theorem reconcileStep_completes_self (r : List String) (st : JobStatus)
    (p : String × String) (h : p.2 ∉ r) :
    p.1 ∈ (reconcileStep r st p).completed ∧
      p.1 ∉ (reconcileStep r st p).submitted.map Prod.fst := by
  unfold reconcileStep
  rw [if_neg h]
  constructor
  · simp only
    split
    · assumption
    · exact List.mem_append_right _ (List.mem_singleton.mpr rfl)
  · simp only [List.mem_map]
    rintro ⟨q, hq, hqe⟩
    have hne := (List.mem_filter.mp hq).2
    simp only [decide_eq_true_eq] at hne
    exact hne hqe

theorem reconcile_fold_completes (r : List String)
    (snap : List (String × String)) (st : JobStatus) (p : String × String)
    (hmem : p ∈ snap) (hr : p.2 ∉ r) :
    p.1 ∈ (snap.foldl (reconcileStep r) st).completed ∧
      p.1 ∉ (snap.foldl (reconcileStep r) st).submitted.map Prod.fst := by
  induction snap generalizing st with
  | nil => cases hmem
  | cons q snap ih =>
    rw [List.foldl_cons]
    rcases List.mem_cons.mp hmem with rfl | hmem'
    · obtain ⟨hc, hk⟩ := reconcileStep_completes_self r st p hr
      refine ⟨reconcile_fold_completed_mono r snap _ _ hc, fun hx => ?_⟩
      exact hk (reconcile_fold_keys_sub r snap _ _ hx)
    · exact ih _ hmem'

end Helpscripts

namespace Helpscripts

theorem update_pending_eq (all r : List String) (st : JobStatus) :
    (update_job_status all r st).pending = (scanD12 all st).pending := by
  unfold update_job_status
  split
  · rfl
  · exact reconcile_fold_pending r _ _

theorem update_completed_mono (all r : List String) (st : JobStatus)
    (x : String) (h : x ∈ st.completed) :
    x ∈ (update_job_status all r st).completed := by
  have h1 : x ∈ (scanD12 all st).completed := by
    rw [scanD12_completed]
    exact h
  unfold update_job_status
  split
  · exact h1
  · exact reconcile_fold_completed_mono r _ _ x h1

theorem update_memBuckets (all r : List String) (st : JobStatus) (x : String)
    (h : memBuckets x (scanD12 all st)) :
    memBuckets x (update_job_status all r st) := by
  unfold update_job_status
  split
  · exact h
  · exact reconcile_fold_memBuckets r _ _ x h

/-! ## C3 — job-status update idempotence and exactly-once completion -/

/-- C3: with the .d12 directory and the scheduler's job list fixed,
(i) running `update_job_status` a second time leaves `pending` exactly as
after the first run — a name already in pending, submitted, or completed
is never re-added; (ii) the resulting pending and completed lists hold no
duplicates (given the store starts duplicate-free); (iii) every submitted
job whose external ID is absent from the scheduler list ends up in
`completed` — exactly once, by (ii) — and is removed from `submitted`. -/
theorem update_job_status_idempotent_and_complete_once
    (all running : List String) (st : JobStatus)
    (hp : st.pending.Nodup) (hc : st.completed.Nodup) :
    ((update_job_status all running (update_job_status all running st)).pending
        = (update_job_status all running st).pending) ∧
    (update_job_status all running st).pending.Nodup ∧
    (update_job_status all running st).completed.Nodup ∧
    (∀ p ∈ st.submitted, p.2 ∉ running →
      p.1 ∈ (update_job_status all running st).completed ∧
      p.1 ∉ (update_job_status all running st).submitted.map Prod.fst) := by
  refine ⟨?_, ?_, ?_, ?_⟩
  · have hnoop : scanD12 all (update_job_status all running st)
        = update_job_status all running st := by
      refine scanD12_noop all _ (fun x hx => ?_)
      exact update_memBuckets all running st x (scanD12_mem all st x hx)
    rw [update_pending_eq, hnoop]
  · rw [update_pending_eq]
    exact scanD12_pending_nodup all st hp
  · have hc1 : (scanD12 all st).completed.Nodup := by
      rw [scanD12_completed]
      exact hc
    unfold update_job_status
    split
    · exact hc1
    · exact reconcile_fold_completed_nodup running _ _ hc1
  · intro p hmem hr
    have hsub : (scanD12 all st).submitted = st.submitted :=
      scanD12_submitted all st
    unfold update_job_status
    split
    · next hemp =>
      rw [hsub] at hemp
      rw [hemp] at hmem
      cases hmem
    · rw [hsub]
      exact reconcile_fold_completes running st.submitted _ p hmem hr

/-- Witness for `update_job_status_idempotent_and_complete_once` on a
concrete store with one submitted job absent from the scheduler list. -/
theorem update_job_status_idempotent_and_complete_once_witness :
    ((update_job_status ["a", "j"] ["99"]
        (update_job_status ["a", "j"] ["99"]
          ⟨[("j", "17")], ["a"], ["c"]⟩)).pending
      = (update_job_status ["a", "j"] ["99"]
          ⟨[("j", "17")], ["a"], ["c"]⟩).pending) ∧
    (update_job_status ["a", "j"] ["99"]
        ⟨[("j", "17")], ["a"], ["c"]⟩).pending.Nodup ∧
    (update_job_status ["a", "j"] ["99"]
        ⟨[("j", "17")], ["a"], ["c"]⟩).completed.Nodup ∧
    (∀ p ∈ ([("j", "17")] : List (String × String)), p.2 ∉ (["99"] : List String) →
      p.1 ∈ (update_job_status ["a", "j"] ["99"]
          ⟨[("j", "17")], ["a"], ["c"]⟩).completed ∧
      p.1 ∉ (update_job_status ["a", "j"] ["99"]
          ⟨[("j", "17")], ["a"], ["c"]⟩).submitted.map Prod.fst) :=
  update_job_status_idempotent_and_complete_once ["a", "j"] ["99"]
    ⟨[("j", "17")], ["a"], ["c"]⟩ (by decide) (by decide)

/-! ## C8 — job-lifecycle invariant -/

/-- C8: across the tracker's operations (`update_job_status` for
scan/reconcile, `submit_job` for submission), (i) a name newly in
`pending` was either already pending or previously unknown — never taken
from `submitted` or `completed`; (ii) `submit_job` adds nothing to
`pending`; (iii) `completed` members are never removed by either
operation — so a job whose run failed silently stays reported as
completed; (iv) a submitted job either stays submitted or moves to
`completed` under `update_job_status`, and stays submitted under
`submit_job` — the only transitions are pending→submitted and
submitted→completed. -/
theorem job_lifecycle_no_backward_transitions
    (all running : List String) (job_name job_id : String) (ok : Bool)
    (st : JobStatus) :
    (∀ x ∈ (update_job_status all running st).pending,
        x ∈ st.pending ∨ (x ∉ st.submitted.map Prod.fst ∧ x ∉ st.completed)) ∧
    (∀ x ∈ (submit_job job_name job_id ok st).pending, x ∈ st.pending) ∧
    (∀ x ∈ st.completed,
        x ∈ (update_job_status all running st).completed ∧
        x ∈ (submit_job job_name job_id ok st).completed) ∧
    (∀ x ∈ st.submitted.map Prod.fst,
        x ∈ (update_job_status all running st).submitted.map Prod.fst ∨
        x ∈ (update_job_status all running st).completed) ∧
    (∀ x ∈ st.submitted.map Prod.fst,
        x ∈ (submit_job job_name job_id ok st).submitted.map Prod.fst) := by
  refine ⟨?_, ?_, ?_, ?_, ?_⟩
  · intro x hx
    rw [update_pending_eq] at hx
    exact scanD12_pending_new all st x hx
  · intro x hx
    unfold submit_job at hx
    split at hx
    · exact List.mem_of_mem_erase hx
    · exact hx
  · intro x hx
    refine ⟨update_completed_mono all running st x hx, ?_⟩
    unfold submit_job
    split <;> exact hx
  · intro x hx
    have hx1 : x ∈ (scanD12 all st).submitted.map Prod.fst := by
      rw [scanD12_submitted]
      exact hx
    unfold update_job_status
    split
    · exact Or.inl hx1
    · exact reconcile_fold_keys_or_completed running _ _ x (Or.inl hx1)
  · intro x hx
    unfold submit_job
    split
    · simp only
      split
      · next hin =>
        have : (st.submitted.map fun q =>
            if q.1 = job_name then (q.1, job_id) else q).map Prod.fst
              = st.submitted.map Prod.fst := by
          rw [List.map_map]
          refine List.map_congr_left (fun q _ => ?_)
          by_cases hq : q.1 = job_name <;> simp [hq]
        rw [this]
        exact hx
      · rw [List.map_append]
        exact List.mem_append_left _ hx
    · exact hx

/-- Witness for `job_lifecycle_no_backward_transitions` on a concrete
store. -/
theorem job_lifecycle_no_backward_transitions_witness :
    (∀ x ∈ (update_job_status ["b"] [] ⟨[("j", "17")], ["a"], ["c"]⟩).pending,
        x ∈ (["a"] : List String) ∨
          (x ∉ ([("j", "17")] : List (String × String)).map Prod.fst ∧
           x ∉ (["c"] : List String))) ∧
    (∀ x ∈ (submit_job "a" "42" true ⟨[("j", "17")], ["a"], ["c"]⟩).pending,
        x ∈ (["a"] : List String)) ∧
    (∀ x ∈ (["c"] : List String),
        x ∈ (update_job_status ["b"] [] ⟨[("j", "17")], ["a"], ["c"]⟩).completed ∧
        x ∈ (submit_job "a" "42" true ⟨[("j", "17")], ["a"], ["c"]⟩).completed) ∧
    (∀ x ∈ ([("j", "17")] : List (String × String)).map Prod.fst,
        x ∈ (update_job_status ["b"] []
            ⟨[("j", "17")], ["a"], ["c"]⟩).submitted.map Prod.fst ∨
        x ∈ (update_job_status ["b"] [] ⟨[("j", "17")], ["a"], ["c"]⟩).completed) ∧
    (∀ x ∈ ([("j", "17")] : List (String × String)).map Prod.fst,
        x ∈ (submit_job "a" "42" true
            ⟨[("j", "17")], ["a"], ["c"]⟩).submitted.map Prod.fst) :=
  job_lifecycle_no_backward_transitions ["b"] [] "a" "42" true
    ⟨[("j", "17")], ["a"], ["c"]⟩

end Helpscripts

namespace Helpscripts

/-! ## C9 — status-load fallback default -/

/-- C9: when every candidate status-file location (configured path, home
directory, temp directory) is missing or unreadable, `load_status`
returns the fresh empty status without raising — discarding all prior
submission/completion history — and the following directory scan then
classifies every discovered .d12 name as pending, making previously
completed jobs eligible for resubmission. -/
theorem load_status_fallback_resets_history (atts : List LoadAttempt)
    (h : ∀ a ∈ atts, a.isOk = false) :
    load_status atts = default_status ∧
    ∀ (all_d12 : List String) (x : String), x ∈ all_d12 →
      x ∈ (scanD12 all_d12 (load_status atts)).pending := by
  have hd : load_status atts = default_status := by
    induction atts with
    | nil => rfl
    | cons a rest ih =>
      cases a with
      | absent => exact ih (fun b hb => h b (List.mem_cons_of_mem _ hb))
      | unreadable => exact ih (fun b hb => h b (List.mem_cons_of_mem _ hb))
      | ok d =>
        have := h _ (List.mem_cons_self _ _)
        simp [LoadAttempt.isOk] at this
  refine ⟨hd, ?_⟩
  intro all x hx
  rw [hd]
  have hm := scanD12_mem all default_status x hx
  unfold memBuckets at hm
  rcases hm with hm | hm | hm
  · rw [scanD12_submitted] at hm
    simp [default_status] at hm
  · exact hm
  · rw [scanD12_completed] at hm
    simp [default_status] at hm

/-- Witness for `load_status_fallback_resets_history`: both candidate
outcomes fail, and a discovered name lands in pending. -/
theorem load_status_fallback_resets_history_witness :
    load_status [LoadAttempt.absent, LoadAttempt.unreadable] = default_status ∧
      "job1" ∈ (scanD12 ["job1"]
        (load_status [LoadAttempt.absent, LoadAttempt.unreadable])).pending := by
  obtain ⟨h1, h2⟩ := load_status_fallback_resets_history
    [LoadAttempt.absent, LoadAttempt.unreadable] (by decide)
  exact ⟨h1, h2 ["job1"] "job1" (by decide)⟩

/-! ## C10 — scheduler-query failure inflates capacity -/

/-- C10: when the `squeue` query times out or raises, `get_current_jobs`
returns 0 rather than an error value, so `process_queue` computes its
submission capacity as `max_jobs - reserve_slots` — exactly as if zero
jobs were running, regardless of the queue's actual occupancy — and the
submission slice takes up to that many pending jobs. -/
theorem squeue_failure_inflates_capacity
    (max_jobs reserve_slots : ℤ) (pending_jobs : List String)
    (h0 : 0 ≤ reserve_slots) (h : reserve_slots < max_jobs) :
    get_current_jobs none = 0 ∧
    process_queue_slots max_jobs reserve_slots none none
      = max_jobs - reserve_slots ∧
    (process_queue_submit_list pending_jobs
        (process_queue_slots max_jobs reserve_slots none none)).length
      = min (max_jobs - reserve_slots).toNat pending_jobs.length := by
  have hslots : process_queue_slots max_jobs reserve_slots none none
      = max_jobs - reserve_slots := by
    unfold process_queue_slots get_current_jobs
    rw [show ((0 : ℕ) : ℤ) = (0 : ℤ) from rfl, sub_zero,
      max_eq_right (by omega : (0 : ℤ) ≤ max_jobs),
      if_neg (by omega : ¬ max_jobs ≤ reserve_slots)]
  refine ⟨rfl, hslots, ?_⟩
  rw [process_queue_submit_list, hslots, List.length_take]

/-- Witness for `squeue_failure_inflates_capacity` at the script's
defaults (250 max jobs, 30 reserved). -/
theorem squeue_failure_inflates_capacity_witness :
    get_current_jobs none = 0 ∧
    process_queue_slots 250 30 none none = 250 - 30 ∧
    (process_queue_submit_list ["a", "b", "c"]
        (process_queue_slots 250 30 none none)).length
      = min ((250 : ℤ) - 30).toNat (["a", "b", "c"] : List String).length :=
  squeue_failure_inflates_capacity 250 30 ["a", "b", "c"] (by decide) (by decide)

end Helpscripts
